import Mathlib

/-!
Verification of the collaborative document synchronization and access-control
logic of the my-site repository (src/scripts/main.js, collaborative variant,
and src/netlify/functions/gemini-proxy.js callers).

The JavaScript module state and its operations are shallowly embedded as pure
Lean functions over explicit state records:

  - Client models the free-floating module variables of main.js
    (currentUser, activeProjectId, projectDocRef, currentMembership,
    isApplyingRemoteData, pendingRemoteUpdates, throttle closure state, ...).
  - Store models the remote document database: the projects collection, the
    members sub-collection keyed by (projectId, uid), and the flat
    projectInvites collection.
  - Remote updateDoc / setDoc calls are reflected either directly in the Store
    or as emitted RemoteWrite records when only the outbound traffic matters.
  - JS objects used as string maps (pendingRemoteUpdates, fields) are modelled
    as insertion-ordered association lists, matching JS property-order
    semantics for string keys.
  - Timers (setTimeout / clearTimeout inside the throttle utility) are
    modelled as an explicit optional scheduled fire time; the single-threaded
    event loop is modelled by firing a due timer before a later event is
    processed and by an explicit drain at the end of a scenario.
-/

namespace MySite

/-- Insertion-ordered association-list update, matching assignment to a JS
object property: an existing key keeps its position and gets the new value, a
new key is appended. -/
def updateAssoc {α β : Type} [DecidableEq α] : List (α × β) → α → β → List (α × β)
  | [], k, v => [(k, v)]
  | (k', v') :: rest, k, v =>
    if k' = k then (k, v) :: rest else (k', v') :: updateAssoc rest k v

/-- Association-list lookup, matching JS property read. -/
def lookupAssoc {α β : Type} [DecidableEq α] : List (α × β) → α → Option β
  | [], _ => none
  | (k', v') :: rest, k => if k' = k then some v' else lookupAssoc rest k

theorem lookupAssoc_updateAssoc_self {α β : Type} [DecidableEq α]
    (l : List (α × β)) (k : α) (v : β) :
    lookupAssoc (updateAssoc l k v) k = some v := by
  induction l with
  | nil => simp [updateAssoc, lookupAssoc]
  | cons head tail ih =>
    by_cases h : head.1 = k
    · simp [updateAssoc, lookupAssoc, h]
    · simp [updateAssoc, lookupAssoc, h, ih]

theorem lookupAssoc_updateAssoc_other {α β : Type} [DecidableEq α]
    (l : List (α × β)) (k k' : α) (v : β) (hne : k' ≠ k) :
    lookupAssoc (updateAssoc l k v) k' = lookupAssoc l k' := by
  have hks : k ≠ k' := Ne.symm hne
  induction l with
  | nil => simp [updateAssoc, lookupAssoc, hks]
  | cons head tail ih =>
    by_cases h : head.1 = k
    · simp [updateAssoc, lookupAssoc, h, hks, h.symm ▸ hks]
    · simp only [updateAssoc, lookupAssoc, h, if_false]
      by_cases h2 : head.1 = k'
      · simp [h2]
      · simp [h2, ih]

/-- The field registry of the wizard variant of main.js (fieldIds,
src/scripts/main.js lines 441-456). -/
def fieldIds : List String :=
  ["problem", "solution", "pitch",
   "persona_full",
   "mvp_features", "mvp_anti_features",
   "validation_method", "validation_success",
   "calc_price", "calc_var_costs", "calc_fixed_costs",
   "resources_stack", "resources_budget", "resources_time"]

/-- Membership record stored under projects/(projectId)/members/(uid)
(role, email, displayName; the addedAt server timestamp is not modelled). -/
structure MemberDoc where
  role : String
  email : String
  displayName : String
  deriving Repr, DecidableEq

/-- Project document (ownerId, name, plan, fields map; timestamps not
modelled). -/
structure ProjectDoc where
  ownerId : String
  name : String
  plan : Option String
  fields : List (String × String)
  deriving Repr, DecidableEq

/-- Invite document in the flat projectInvites collection. Transition
timestamps are not modelled; the actor fields acceptedBy / revokedBy /
dismissedBy are. -/
structure InviteDoc where
  projectId : String
  projectName : String
  invitedEmail : String
  role : String
  status : String
  createdBy : String
  createdByEmail : String
  acceptedBy : Option String
  revokedBy : Option String
  dismissedBy : Option String
  deriving Repr, DecidableEq

/-- The remote Firestore state: projects collection, members sub-collections
keyed by (projectId, uid), and the projectInvites collection. -/
structure Store where
  projects : List (String × ProjectDoc)
  members : List ((String × String) × MemberDoc)
  invites : List (String × InviteDoc)
  deriving Repr, DecidableEq

def upsertProject (st : Store) (id : String) (d : ProjectDoc) : Store :=
  { st with projects := updateAssoc st.projects id d }

def upsertMember (st : Store) (pid uid : String) (d : MemberDoc) : Store :=
  { st with members := updateAssoc st.members (pid, uid) d }

def upsertInvite (st : Store) (id : String) (d : InviteDoc) : Store :=
  { st with invites := updateAssoc st.invites id d }

def lookupMember (st : Store) (pid uid : String) : Option MemberDoc :=
  lookupAssoc st.members (pid, uid)

/-- An authenticated identity as delivered by onAuthStateChanged (uid plus
nullable email and displayName). -/
structure UserInfo where
  uid : String
  email : Option String
  displayName : Option String
  deriving Repr, DecidableEq

/-- A single outbound merge-style update issued by updateDoc on a project
document: the field-path keyed updates, the lastEditor stamp, and whether an
updatedAt server timestamp was included. -/
structure RemoteWrite where
  project : String
  updates : List (String × String)
  lastEditor : String
  stampsUpdatedAt : Bool
  deriving Repr, DecidableEq

/-- The module-level mutable state of main.js (collaborative variant, lines
460-477), as one explicit record. The throttle closure created by
throttle(persistRemoteUpdates, 500) is represented by throttleLast (the
closure variable last) and throttleTimer (the pending setTimeout, as its
scheduled absolute fire time). The local-save path (throttledLocalSave,
200ms, writing to localStorage rather than the remote store) is abstracted
as the localSaveRequested flag, since no claim concerns its contents. -/
structure Client where
  userId : Option String
  userEmail : Option String
  userDisplayName : Option String
  activeProjectId : Option String
  activeProjectName : String
  currentUserPlan : String
  currentMembership : MemberDoc
  projectDocRef : Option String
  isApplyingRemoteData : Bool
  pendingRemoteUpdates : List (String × String)
  uiValues : List (String × String)
  throttleLast : Nat
  throttleTimer : Option Nat
  saveStatus : String
  localSaveRequested : Bool
  deriving Repr, DecidableEq

/-- Current value of a field element (an absent entry reads as the empty
string, matching an empty input element). -/
def uiGet (c : Client) (id : String) : String :=
  (lookupAssoc c.uiValues id).getD ""

/-- The initial module state of main.js on load (lines 460-477): no user, no
project, currentMembership defaults to role owner, empty pending buffer. -/
def initialClient : Client :=
  { userId := none
    userEmail := none
    userDisplayName := none
    activeProjectId := none
    activeProjectName := "Persönliches Projekt"
    currentUserPlan := "free"
    currentMembership := { role := "owner", email := "", displayName := "" }
    projectDocRef := none
    isApplyingRemoteData := false
    pendingRemoteUpdates := []
    uiValues := []
    throttleLast := 0
    throttleTimer := none
    saveStatus := ""
    localSaveRequested := false }

/-!
Sync coordinator: persistRemoteUpdates (main.js lines 1385-1453), the
throttle utility (lines 1850-1869) instantiated as
throttledFirestoreSave = throttle(persistRemoteUpdates, 500) (line 1877),
and the per-field input listener installed by bindFieldListeners
(lines 1362-1379).
-/

/-- persistRemoteUpdates (main.js lines 1385-1453). Guarded no-op without
currentUser, activeProjectId or projectDocRef, or with an empty
pendingRemoteUpdates buffer. Otherwise drains the buffer into a
field-path-keyed update map, clears the buffer BEFORE awaiting updateDoc, and
issues one merge-style update stamped with updatedAt and lastEditor. The
writeSucceeds argument models the updateDoc outcome; on failure the buffer is
not restored (only the save-status UI differs). The returned write is the
attempted update request. -/
def persistRemoteUpdates (c : Client) (writeSucceeds : Bool) :
    Client × Option RemoteWrite :=
  match c.userId, c.activeProjectId, c.projectDocRef with
  | some uid, some _, some ref =>
    if c.pendingRemoteUpdates.isEmpty then (c, none)
    else
      ({ c with pendingRemoteUpdates := [],
                saveStatus := if writeSucceeds then "saved" else "error" },
       some { project := ref,
              updates := c.pendingRemoteUpdates.map
                (fun kv => ("fields." ++ kv.1, kv.2)),
              lastEditor := uid,
              stampsUpdatedAt := true })
  | _, _, _ => (c, none)

/-- One invocation of throttledFirestoreSave = throttle(persistRemoteUpdates,
500) at clock time now (main.js lines 1850-1869, 1877). With
remaining = 500 - (now - last) non-positive the function runs immediately
(leading edge, last := now); otherwise the pending timeout is replaced by one
firing at last + 500 (now + remaining). -/
def throttledFirestoreSave (c : Client) (now : Nat) (writeSucceeds : Bool) :
    Client × Option RemoteWrite :=
  if c.throttleLast + 500 ≤ now then
    persistRemoteUpdates { c with throttleLast := now } writeSucceeds
  else
    ({ c with throttleTimer := some (c.throttleLast + 500) }, none)

/-- The throttle timeout callback (main.js lines 1863-1866): when the pending
timer fires, last := Date.now() (the scheduled fire time) and
persistRemoteUpdates runs. No-op when no timer is pending. -/
def fireThrottleTimer (c : Client) (writeSucceeds : Bool) :
    Client × Option RemoteWrite :=
  match c.throttleTimer with
  | none => (c, none)
  | some tf =>
    persistRemoteUpdates { c with throttleLast := tf, throttleTimer := none }
      writeSucceeds

/-- Event-loop scheduling: a pending timer whose deadline has passed fires
before an event at clock time now is handled. -/
def fireDueTimer (c : Client) (now : Nat) (writeSucceeds : Bool) :
    Client × Option RemoteWrite :=
  match c.throttleTimer with
  | none => (c, none)
  | some tf => if tf ≤ now then fireThrottleTimer c writeSucceeds else (c, none)

/-- The input listener bound per field by bindFieldListeners (main.js lines
1362-1379), receiving the element value v after the edit. Suppressed entirely
while isApplyingRemoteData is set; with a user, a projectDocRef and an active
project it records v into pendingRemoteUpdates and invokes
throttledFirestoreSave; otherwise it requests a throttled local save. -/
def handleFieldInput (c : Client) (id v : String) (now : Nat)
    (writeSucceeds : Bool) : Client × Option RemoteWrite :=
  let c1 := { c with uiValues := updateAssoc c.uiValues id v }
  if c1.isApplyingRemoteData then (c1, none)
  else
    match c1.userId, c1.projectDocRef, c1.activeProjectId with
    | some _, some _, some _ =>
      throttledFirestoreSave
        { c1 with pendingRemoteUpdates := updateAssoc c1.pendingRemoteUpdates id v }
        now writeSucceeds
    | _, _, _ => ({ c1 with localSaveRequested := true }, none)

/-- One user edit event (time, field id, value): any due throttle timer fires
first, then the input listener runs. Remote writes are taken to succeed. -/
def stepEdit (c : Client) (e : Nat × String × String) : Client × List RemoteWrite :=
  let r1 := fireDueTimer c e.1 true
  let r2 := handleFieldInput r1.1 e.2.1 e.2.2 e.1 true
  (r2.1, r1.2.toList ++ r2.2.toList)

/-- Processes a time-ordered list of edit events. -/
def runEdits : Client → List (Nat × String × String) → Client × List RemoteWrite
  | c, [] => (c, [])
  | c, e :: rest =>
    let r1 := stepEdit c e
    let r2 := runEdits r1.1 rest
    (r2.1, r1.2 ++ r2.2)

/-- Lets a still-pending throttle timer fire after the last event (the quiet
period at the end of a scenario). -/
def drainTimer (c : Client) : Client × List RemoteWrite :=
  let r := fireThrottleTimer c true
  (r.1, r.2.toList)

/-- A full scenario: a list of edits followed by the trailing quiet period. -/
def runEditsAndDrain (c : Client) (es : List (Nat × String × String)) :
    Client × List RemoteWrite :=
  let r1 := runEdits c es
  let r2 := drainTimer r1.1
  (r2.1, r1.2 ++ r2.2)

/-- A project snapshot as delivered to the onSnapshot listener of
subscribeToProject (name, plan and the fields map; docSnap.data() with absent
sub-fields modelled by Option). -/
structure SnapshotData where
  name : Option String
  plan : Option String
  fields : List (String × String)
  deriving Repr, DecidableEq

/-- Per-field body of the snapshot-application loop of subscribeToProject
(main.js lines 1251-1259): compare the element value with the snapshot value
(default empty string) and assign only on mismatch. A programmatic
assignment is modelled conservatively as also delivering the field input
notification - the re-entrancy case the isApplyingRemoteData guard exists to
suppress. -/
def snapStep (data : SnapshotData) (now : Nat)
    (acc : Client × List RemoteWrite) (id : String) : Client × List RemoteWrite :=
  let rv := (lookupAssoc data.fields id).getD ""
  if uiGet acc.1 id ≠ rv then
    let r := handleFieldInput acc.1 id rv now true
    (r.1, acc.2 ++ r.2.toList)
  else acc

/-- The onSnapshot callback of subscribeToProject (main.js lines 1237-1260):
updates activeProjectName and currentUserPlan from the snapshot, sets
isApplyingRemoteData, copies every registered field from the snapshot into
the UI (assigning only on mismatch), and clears the guard synchronously
before returning. -/
def applyProjectSnapshot (c : Client) (data : SnapshotData) (now : Nat) :
    Client × List RemoteWrite :=
  let c1 := { c with activeProjectName := data.name.getD c.activeProjectName }
  let c2 := match data.plan with
    | some p => { c1 with currentUserPlan := p }
    | none => c1
  let c3 := { c2 with isApplyingRemoteData := true }
  let res := fieldIds.foldl (snapStep data now) (c3, [])
  ({ res.1 with isApplyingRemoteData := false }, res.2)

/-!
Membership and invite manager: ensureOwnerProject (main.js lines 1100-1135),
setActiveProject (lines 1153-1218), clearProjectSubscriptions (lines
1220-1231), the invite-form submit handler (setupInviteForm, lines
1530-1601), acceptInvite (lines 1757-1781), and the revoke / dismiss button
handlers (renderPendingInvites lines 1679-1695, renderIncomingInvites lines
1738-1754). Subscriptions, DOM rendering, console logging and timestamps are
not modelled; the Store plays the role of Firestore.
-/

/-- clearProjectSubscriptions (main.js lines 1220-1231): unsubscribes all
project listeners (not modelled), clears projectDocRef and empties
pendingRemoteUpdates without flushing. -/
def clearProjectSubscriptions (c : Client) : Client :=
  { c with projectDocRef := none, pendingRemoteUpdates := [] }

/-- setActiveProject (main.js lines 1153-1218). No-op without a user or when
the id is already active. Otherwise clears subscriptions and the pending
buffer, adopts the id, creates the project document if absent (seeded with
the current UI field values and owner = current user), takes the project
name from the PRE-creation snapshot, resolves the membership record (viewer
default when absent), and when no membership record exists creates one with
role owner if the uid matches the pre-creation snapshot ownerId and editor
otherwise (for a freshly created project the pre-creation snapshot is empty,
so even the creator gets editor). -/
def setActiveProject (st : Store) (c : Client) (projectId : String) :
    Store × Client :=
  match c.userId with
  | none => (st, c)
  | some uid =>
    if c.activeProjectId = some projectId then (st, c)
    else
      let c1 := clearProjectSubscriptions c
      let c2 := { c1 with activeProjectId := some projectId,
                          projectDocRef := some projectId }
      let projectSnap := lookupAssoc st.projects projectId
      let st1 := match projectSnap with
        | none =>
          upsertProject st projectId
            { ownerId := uid, name := "Projekt", plan := none,
              fields := c2.uiValues }
        | some _ => st
      let c3 := { c2 with
        activeProjectName := (projectSnap.map (fun (d : ProjectDoc) => d.name)).getD "Projekt" }
      let membershipSnap := lookupMember st1 projectId uid
      let c4 := { c3 with currentMembership :=
        membershipSnap.getD { role := "viewer", email := "", displayName := "" } }
      let st2 := match membershipSnap with
        | some _ => st1
        | none =>
          upsertMember st1 projectId uid
            { role := match projectSnap with
                | some d => if uid = d.ownerId then "owner" else "editor"
                | none => "editor",
              email := c.userEmail.getD "",
              displayName := c.userDisplayName.getD "" }
      (st2, c4)

/-- ensureOwnerProject (main.js lines 1100-1135): creates the deterministic
personal project (uid)-personal if absent (plan free, fields seeded from the
current UI), backfills a missing plan on an existing one, and upserts the
owner membership record for the user. -/
def ensureOwnerProject (st : Store) (user : UserInfo)
    (ui : List (String × String)) : Store :=
  let projectId := user.uid ++ "-personal"
  let st1 := match lookupAssoc st.projects projectId with
    | none =>
      upsertProject st projectId
        { ownerId := user.uid, name := "Persönliches Projekt",
          plan := some "free", fields := ui }
    | some d => match d.plan with
      | some _ => st
      | none => upsertProject st projectId { d with plan := some "free" }
  upsertMember st1 projectId user.uid
    { role := "owner", email := user.email.getD "",
      displayName := user.displayName.getD "" }

/-- computeRole, the effective-role resolution of the spec as implemented at
the membership read of setActiveProject (main.js lines 1196-1197): the stored
role when a membership record exists, viewer otherwise. -/
def computeRole (st : Store) (projectId uid : String) : String :=
  match lookupMember st projectId uid with
  | some m => m.role
  | none => "viewer"

/-- acceptInvite (main.js lines 1757-1781): no-op without a user; otherwise
upserts the membership record for the caller with the role of the passed
invite object, then transitions the stored invite to accepted (updateDoc
fails on a missing document, aborting the sequence after the membership
upsert), then switches the active project to the invite target. -/
def acceptInvite (st : Store) (c : Client) (inviteId : String)
    (invite : InviteDoc) : Store × Client :=
  match c.userId with
  | none => (st, c)
  | some uid =>
    let st1 := upsertMember st invite.projectId uid
      { role := invite.role, email := c.userEmail.getD "",
        displayName := c.userDisplayName.getD "" }
    match lookupAssoc st1.invites inviteId with
    | none => (st1, c)
    | some stored =>
      let st2 := upsertInvite st1 inviteId
        { stored with status := "accepted", acceptedBy := some uid }
      setActiveProject st2 c invite.projectId

/-- The revoke-invite button handler of renderPendingInvites (main.js lines
1679-1695): unconditionally sets status revoked and stamps revokedBy
(updateDoc fails on a missing document, leaving the store unchanged). -/
def revokeInvite (st : Store) (inviteId : String) (byUid : Option String) :
    Store :=
  match lookupAssoc st.invites inviteId with
  | none => st
  | some stored =>
    upsertInvite st inviteId { stored with status := "revoked", revokedBy := byUid }

/-- The dismiss-invite button handler of renderIncomingInvites (main.js lines
1738-1754): unconditionally sets status dismissed and stamps dismissedBy. -/
def dismissInvite (st : Store) (inviteId : String) (byUid : Option String) :
    Store :=
  match lookupAssoc st.invites inviteId with
  | none => st
  | some stored =>
    upsertInvite st inviteId
      { stored with status := "dismissed", dismissedBy := byUid }

/-- Outcome of one submission of the invite form. -/
inductive InviteFormOutcome where
  | ignored
  | permissionDenied
  | emptyEmail
  | created (inviteId : String)
  deriving Repr, DecidableEq

/-- The invite-form submit handler installed by setupInviteForm (main.js
lines 1530-1601): returns silently without user or active project, rejects a
caller whose currentMembership role is not owner with a permission warning,
normalizes the email (trim, lowercase) and rejects an empty one, defaults an
empty role selection to editor, and persists a pending invite record under a
freshly generated opaque id (passed in as newInviteId). -/
def createInvite (st : Store) (c : Client) (emailRaw roleSel : String)
    (newInviteId : String) : Store × InviteFormOutcome :=
  match c.userId, c.activeProjectId with
  | some uid, some pid =>
    if c.currentMembership.role ≠ "owner" then (st, .permissionDenied)
    else
      let invitedEmail := emailRaw.trim.toLower
      let role := if roleSel = "" then "editor" else roleSel
      if invitedEmail = "" then (st, .emptyEmail)
      else
        (upsertInvite st newInviteId
          { projectId := pid, projectName := c.activeProjectName,
            invitedEmail := invitedEmail, role := role, status := "pending",
            createdBy := uid, createdByEmail := c.userEmail.getD "",
            acceptedBy := none, revokedBy := none, dismissedBy := none },
         .created newInviteId)
  | _, _ => (st, .ignored)

/-- The signed-out branch of the onAuthStateChanged handler (main.js lines
590-629): currentUser := null, subscriptions and pending buffer cleared
without flushing, active project and membership reset. -/
def handleSignOut (c : Client) : Client :=
  let c1 := { c with userId := none, userEmail := none, userDisplayName := none }
  let c2 := clearProjectSubscriptions c1
  { c2 with activeProjectId := none,
            activeProjectName := "Persönliches Projekt",
            currentMembership := { role := "viewer", email := "", displayName := "" },
            currentUserPlan := "free" }

/-!
AI critique proxy client: callGeminiAPI (main.js lines 318-410), called by
the analysis features, e.g. analyzeCompetitors (lines 2512-2555) passes
useSearch = true.
-/

/-- One HTTP response from the /.netlify/functions/gemini-proxy endpoint:
status code and, for a success, the extracted candidate text (none models a
response without candidates; the empty string a falsy text). -/
structure GeminiResp where
  status : Nat
  text : Option String
  deriving Repr, DecidableEq

/-- The request payload of one callGeminiAPI attempt: the prompt and whether
the googleSearch tool was attached (useSearch). -/
structure GeminiRequest where
  prompt : String
  hasSearchTool : Bool
  deriving Repr, DecidableEq

/-- Terminal outcome of callGeminiAPI as surfaced to the caller. -/
inductive GeminiOutcome where
  | success (text : String)
  | overloaded
  | rejected
  | invalidRequest
  | apiError (status : Nat)
  | noAnswer
  | network
  deriving Repr, DecidableEq

/-- callGeminiAPI (main.js lines 318-410) over a supply of responses (one per
request issued; an exhausted supply models a failed fetch). Returns the
terminal outcome, the list of requests issued, and the list of retry delays
awaited. A 429 with retryCount below 1 waits 2000 ms and recurses with
retryCount + 1 - the recursive call passes only the prompt and the counter,
so useSearch falls back to its default false. A second 429 surfaces the
overloaded error; 403, 400 and any other non-2xx status are terminal without
retry; a 200-range response yields the text, or the no-answer error when the
extracted text is empty. -/
def callGeminiAPI : List GeminiResp → String → Nat → Bool →
    GeminiOutcome × List GeminiRequest × List Nat
  | [], prompt, _, useSearch => (.network, [⟨prompt, useSearch⟩], [])
  | r :: rest, prompt, retryCount, useSearch =>
    let req : GeminiRequest := ⟨prompt, useSearch⟩
    if r.status = 429 then
      if retryCount < 1 then
        let res := callGeminiAPI rest prompt (retryCount + 1) false
        (res.1, req :: res.2.1, 2000 :: res.2.2)
      else (.overloaded, [req], [])
    else if r.status = 403 then (.rejected, [req], [])
    else if r.status = 400 then (.invalidRequest, [req], [])
    else if ¬ (200 ≤ r.status ∧ r.status < 300) then (.apiError r.status, [req], [])
    else
      match r.text with
      | some t => if t = "" then (.noAnswer, [req], []) else (.success t, [req], [])
      | none => (.noAnswer, [req], [])

/-- A client in the AuthenticatedSynced state: signed in, active project
resolved and subscribed, empty pending buffer, no pending throttle timer.
lastT is the time of the last throttle execution (0 for a fresh session). -/
def readyClient (uid pid : String) (lastT : Nat) (ui : List (String × String)) :
    Client :=
  { initialClient with
    userId := some uid
    activeProjectId := some pid
    projectDocRef := some pid
    uiValues := ui
    throttleLast := lastT }

/-!
Helper lemmas about persistRemoteUpdates and the input handler.
-/

theorem persistRemoteUpdates_guard (c : Client) (b : Bool)
    (h : c.userId = none ∨ c.activeProjectId = none ∨ c.projectDocRef = none) :
    persistRemoteUpdates c b = (c, none) := by
  rcases hu : c.userId with _ | uid <;>
    rcases ha : c.activeProjectId with _ | pid <;>
      rcases hp : c.projectDocRef with _ | ref <;>
        simp_all [persistRemoteUpdates]

theorem persistRemoteUpdates_empty (c : Client) (b : Bool)
    (h : c.pendingRemoteUpdates = []) :
    persistRemoteUpdates c b = (c, none) := by
  rcases hu : c.userId with _ | uid <;>
    rcases ha : c.activeProjectId with _ | pid <;>
      rcases hp : c.projectDocRef with _ | ref <;>
        simp [persistRemoteUpdates, hu, ha, hp, h]

theorem persistRemoteUpdates_run (c : Client) (b : Bool) (uid pid ref : String)
    (h1 : c.userId = some uid) (h2 : c.activeProjectId = some pid)
    (h3 : c.projectDocRef = some ref) (h4 : c.pendingRemoteUpdates ≠ []) :
    persistRemoteUpdates c b =
      ({ c with pendingRemoteUpdates := [],
                saveStatus := if b then "saved" else "error" },
       some { project := ref,
              updates := c.pendingRemoteUpdates.map
                (fun kv => ("fields." ++ kv.1, kv.2)),
              lastEditor := uid,
              stampsUpdatedAt := true }) := by
  rcases hb : c.pendingRemoteUpdates with _ | ⟨kv, rest⟩
  · exact absurd hb h4
  · simp [persistRemoteUpdates, h1, h2, h3, hb]

theorem handleFieldInput_applying (c : Client) (id v : String) (now : Nat)
    (b : Bool) (h : c.isApplyingRemoteData = true) :
    handleFieldInput c id v now b =
      ({ c with uiValues := updateAssoc c.uiValues id v }, none) := by
  simp [handleFieldInput, h]

/-!
C3: persistRemoteUpdates is a guarded no-op, otherwise a single drain into
one field-path-keyed update, with the buffer left empty even on failure.
-/

/-- C3: flushRemote (persistRemoteUpdates) is a no-op when the pending buffer
is empty or there is no authenticated user, active project or project
document reference; otherwise it drains the whole buffer into a single
update keyed fields.(id) per buffered field, stamped with updatedAt and
lastEditor = the current user id, and the buffer is empty afterwards for
both a successful and a failed remote write (b ranges over the write
outcome) - the buffer is never restored on failure. -/
theorem persistRemoteUpdates_spec :
    (∀ (c : Client) (b : Bool),
        c.userId = none ∨ c.activeProjectId = none ∨ c.projectDocRef = none →
        persistRemoteUpdates c b = (c, none)) ∧
    (∀ (c : Client) (b : Bool), c.pendingRemoteUpdates = [] →
        persistRemoteUpdates c b = (c, none)) ∧
    (∀ (c : Client) (b : Bool) (uid pid ref : String),
        c.userId = some uid → c.activeProjectId = some pid →
        c.projectDocRef = some ref → c.pendingRemoteUpdates ≠ [] →
        (persistRemoteUpdates c b).2 =
          some { project := ref,
                 updates := c.pendingRemoteUpdates.map
                   (fun kv => ("fields." ++ kv.1, kv.2)),
                 lastEditor := uid,
                 stampsUpdatedAt := true } ∧
        (persistRemoteUpdates c b).1.pendingRemoteUpdates = []) := by
  refine ⟨persistRemoteUpdates_guard, persistRemoteUpdates_empty, ?_⟩
  intro c b uid pid ref h1 h2 h3 h4
  rw [persistRemoteUpdates_run c b uid pid ref h1 h2 h3 h4]
  exact ⟨rfl, rfl⟩

/-- A client mid-way through Scenario B: authenticated user u1 on project
u1-personal with one buffered edit to the solution field. -/
def scenarioBClient : Client :=
  { readyClient "u1" "u1-personal" 0 [("solution", "Fix Y")] with
    pendingRemoteUpdates := [("solution", "Fix Y")] }

theorem persistRemoteUpdates_spec_witness :
    (scenarioBClient.userId = some "u1" ∧
     scenarioBClient.activeProjectId = some "u1-personal" ∧
     scenarioBClient.projectDocRef = some "u1-personal" ∧
     scenarioBClient.pendingRemoteUpdates ≠ []) ∧
    (persistRemoteUpdates scenarioBClient false).2 =
      some { project := "u1-personal",
             updates := [("fields.solution", "Fix Y")],
             lastEditor := "u1",
             stampsUpdatedAt := true } ∧
    (persistRemoteUpdates scenarioBClient false).1.pendingRemoteUpdates = [] := by
  refine ⟨⟨rfl, rfl, rfl, by decide⟩, ?_⟩
  exact persistRemoteUpdates_spec.2.2 scenarioBClient false "u1" "u1-personal"
    "u1-personal" rfl rfl rfl (by decide)

/-!
C2: applying a remote snapshot produces no outbound writes and leaves the
pending buffer alone, because the isApplyingRemoteData guard suppresses the
field input notifications.
-/

theorem snapStep_foldl_applying (data : SnapshotData) (now : Nat)
    (l : List String) :
    ∀ (c : Client) (ws : List RemoteWrite), c.isApplyingRemoteData = true →
      (l.foldl (snapStep data now) (c, ws)).1.isApplyingRemoteData = true ∧
      (l.foldl (snapStep data now) (c, ws)).1.pendingRemoteUpdates =
        c.pendingRemoteUpdates ∧
      (l.foldl (snapStep data now) (c, ws)).2 = ws := by
  induction l with
  | nil => intro c ws h; exact ⟨h, rfl, rfl⟩
  | cons id rest ih =>
    intro c ws h
    rw [List.foldl_cons]
    by_cases hx : uiGet c id ≠ (lookupAssoc data.fields id).getD ""
    · have hstep : snapStep data now (c, ws) id =
          ({ c with uiValues := updateAssoc c.uiValues id ((lookupAssoc data.fields id).getD "") }, ws) := by
        simp [snapStep, hx,
          handleFieldInput_applying c id ((lookupAssoc data.fields id).getD "") now true h]
      rw [hstep]
      exact ih _ ws h
    · have hstep : snapStep data now (c, ws) id = (c, ws) := by
        simp [snapStep, hx]
      rw [hstep]
      exact ih c ws h

/-- C2: applying a remote snapshot whose field values all equal the current
UI values produces zero outbound writes and the pending buffer stays empty;
moreover (the mechanism) every field input notification delivered while
isApplyingRemoteData is set leaves the buffer untouched and emits no
write. -/
theorem applyProjectSnapshot_no_feedback :
    (∀ (c : Client) (data : SnapshotData) (now : Nat),
        c.pendingRemoteUpdates = [] →
        (∀ id ∈ fieldIds, uiGet c id = (lookupAssoc data.fields id).getD "") →
        (applyProjectSnapshot c data now).2 = [] ∧
        (applyProjectSnapshot c data now).1.pendingRemoteUpdates = []) ∧
    (∀ (c : Client) (id v : String) (now : Nat) (b : Bool),
        c.isApplyingRemoteData = true →
        (handleFieldInput c id v now b).1.pendingRemoteUpdates =
          c.pendingRemoteUpdates ∧
        (handleFieldInput c id v now b).2 = none) := by
  constructor
  · intro c data now hbuf _heq
    rcases hplan : data.plan with _ | p
    · have h := snapStep_foldl_applying data now fieldIds
        { c with activeProjectName := data.name.getD c.activeProjectName,
                 isApplyingRemoteData := true } [] rfl
      simp only [applyProjectSnapshot, hplan]
      exact ⟨h.2.2, by rw [h.2.1]; exact hbuf⟩
    · have h := snapStep_foldl_applying data now fieldIds
        { c with activeProjectName := data.name.getD c.activeProjectName,
                 currentUserPlan := p,
                 isApplyingRemoteData := true } [] rfl
      simp only [applyProjectSnapshot, hplan]
      exact ⟨h.2.2, by rw [h.2.1]; exact hbuf⟩
  · intro c id v now b h
    rw [handleFieldInput_applying c id v now b h]
    exact ⟨rfl, rfl⟩

/-- A synced client whose UI fields all agree with an incoming snapshot
(every field empty on both sides). -/
def snapshotEchoClient : Client := readyClient "u1" "u1-personal" 0 []

theorem applyProjectSnapshot_no_feedback_witness :
    (snapshotEchoClient.pendingRemoteUpdates = [] ∧
     (∀ id ∈ fieldIds, uiGet snapshotEchoClient id =
        (lookupAssoc (SnapshotData.mk (some "Projekt") none []).fields id).getD "")) ∧
    (applyProjectSnapshot snapshotEchoClient
        (SnapshotData.mk (some "Projekt") none []) 1000).2 = [] ∧
    (applyProjectSnapshot snapshotEchoClient
        (SnapshotData.mk (some "Projekt") none []) 1000).1.pendingRemoteUpdates = [] := by
  refine ⟨⟨rfl, by decide⟩, ?_⟩
  exact applyProjectSnapshot_no_feedback.1 snapshotEchoClient
    (SnapshotData.mk (some "Projekt") none []) 1000 rfl (by decide)

/-!
Helper lemmas about setActiveProject.
-/

theorem setActiveProject_invites (st : Store) (c : Client) (pid : String) :
    (setActiveProject st c pid).1.invites = st.invites := by
  rcases hu : c.userId with _ | uid
  · simp [setActiveProject, hu]
  · by_cases ha : c.activeProjectId = some pid
    · simp [setActiveProject, hu, ha]
    · rcases hp : lookupAssoc st.projects pid with _ | d <;>
        rcases hm : lookupAssoc st.members (pid, uid) with _ | m <;>
          simp [setActiveProject, hu, ha, hp, hm, lookupMember, upsertProject,
            upsertMember]

theorem setActiveProject_member_preserved (st : Store) (c : Client)
    (pid uid : String) (m : MemberDoc) (hu : c.userId = some uid)
    (hm : lookupMember st pid uid = some m) :
    lookupMember (setActiveProject st c pid).1 pid uid = some m := by
  simp only [lookupMember] at hm
  by_cases ha : c.activeProjectId = some pid
  · simpa [setActiveProject, lookupMember, hu, ha] using hm
  · rcases hp : lookupAssoc st.projects pid with _ | d <;>
      simp [setActiveProject, hu, ha, hp, hm, lookupMember, upsertProject]

theorem setActiveProject_member_created (st : Store) (c : Client)
    (pid uid : String) (hu : c.userId = some uid)
    (ha : c.activeProjectId ≠ some pid) (hm : lookupMember st pid uid = none) :
    lookupMember (setActiveProject st c pid).1 pid uid =
      some { role := match lookupAssoc st.projects pid with
               | some d => if uid = d.ownerId then "owner" else "editor"
               | none => "editor",
             email := c.userEmail.getD "",
             displayName := c.userDisplayName.getD "" } := by
  simp only [lookupMember] at hm
  rcases hp : lookupAssoc st.projects pid with _ | d <;>
    simp [setActiveProject, hu, ha, hp, hm, lookupMember, upsertProject,
      upsertMember, lookupAssoc_updateAssoc_self]

/-!
C5: a user with no membership record computes role viewer.
-/

/-- C5: for every user and project, when no membership record exists for the
(project, user) pair the computed effective role is viewer: computeRole
returns viewer, and setActiveProject resolves currentMembership to the
viewer default at its membership read. -/
theorem computeRole_default_viewer :
    (∀ (st : Store) (pid uid : String), lookupMember st pid uid = none →
        computeRole st pid uid = "viewer") ∧
    (∀ (st : Store) (c : Client) (pid uid : String), c.userId = some uid →
        c.activeProjectId ≠ some pid → lookupMember st pid uid = none →
        ((setActiveProject st c pid).2).currentMembership.role = "viewer") := by
  constructor
  · intro st pid uid h
    simp [computeRole, h]
  · intro st c pid uid hu ha hm
    simp only [lookupMember] at hm
    rcases hp : lookupAssoc st.projects pid with _ | d <;>
      simp [setActiveProject, hu, ha, hp, hm, lookupMember, upsertProject]

/-- A store holding project p owned by u1, with u1 as its only member. -/
def demoStore : Store :=
  { projects := [("p", { ownerId := "u1", name := "Projekt X", plan := none, fields := [] })]
    members := [(("p", "u1"), { role := "owner", email := "u1@example.com", displayName := "U1" })]
    invites := [] }

/-- A signed-in second user u2 with no active project yet. -/
def clientU2 : Client :=
  { initialClient with
    userId := some "u2"
    userEmail := some "u2@example.com"
    userDisplayName := some "U2" }

theorem computeRole_default_viewer_witness :
    (lookupMember demoStore "p" "u2" = none ∧
     computeRole demoStore "p" "u2" = "viewer") ∧
    (clientU2.userId = some "u2" ∧ clientU2.activeProjectId ≠ some "p" ∧
     ((setActiveProject demoStore clientU2 "p").2).currentMembership.role = "viewer") := by
  refine ⟨⟨by decide, computeRole_default_viewer.1 demoStore "p" "u2" (by decide)⟩,
    rfl, by decide,
    computeRole_default_viewer.2 demoStore clientU2 "p" "u2" rfl (by decide) (by decide)⟩

/-!
C4: membership creation. The claimed invariant - non-owner memberships only
via invite acceptance - fails: setActiveProject itself creates an editor
membership for any user who opens a project without one.
-/

/-- C4 counterexample: u2 has no membership record for project p, the
invites collection is empty (so no invite was ever accepted), yet
setActiveProject creates a membership record for (p, u2) with the non-owner
role editor - a non-owner membership record produced by an operation other
than invite acceptance, contradicting the claimed invariant. -/
theorem setActiveProject_creates_editor_membership :
    lookupMember demoStore "p" "u2" = none ∧
    demoStore.invites = [] ∧
    lookupMember (setActiveProject demoStore clientU2 "p").1 "p" "u2" =
      some { role := "editor", email := "u2@example.com", displayName := "U2" } := by
  refine ⟨by decide, rfl, by decide⟩

/-- C4 (amended): ensureOwnerProject always records the creator of the
personal project with role owner, and acceptInvite records the invite role -
but setActiveProject also creates membership records without any invite:
when the caller has no membership record it stores role editor, or owner
exactly when the caller equals the ownerId of the pre-existing project
document (for a project it just created the consulted snapshot is the
pre-creation one, so the role is editor even for the creator). -/
theorem membership_creation_roles :
    (∀ (st : Store) (user : UserInfo) (ui : List (String × String)),
        lookupMember (ensureOwnerProject st user ui) (user.uid ++ "-personal") user.uid =
          some { role := "owner", email := user.email.getD "",
                 displayName := user.displayName.getD "" }) ∧
    (∀ (st : Store) (c : Client) (pid uid : String) (d : ProjectDoc),
        c.userId = some uid → c.activeProjectId ≠ some pid →
        lookupAssoc st.projects pid = some d → uid ≠ d.ownerId →
        lookupMember st pid uid = none →
        lookupMember (setActiveProject st c pid).1 pid uid =
          some { role := "editor", email := c.userEmail.getD "",
                 displayName := c.userDisplayName.getD "" }) ∧
    (∀ (st : Store) (c : Client) (pid uid : String) (d : ProjectDoc),
        c.userId = some uid → c.activeProjectId ≠ some pid →
        lookupAssoc st.projects pid = some d → uid = d.ownerId →
        lookupMember st pid uid = none →
        lookupMember (setActiveProject st c pid).1 pid uid =
          some { role := "owner", email := c.userEmail.getD "",
                 displayName := c.userDisplayName.getD "" }) ∧
    (∀ (st : Store) (c : Client) (pid uid : String),
        c.userId = some uid → c.activeProjectId ≠ some pid →
        lookupAssoc st.projects pid = none →
        lookupMember st pid uid = none →
        lookupMember (setActiveProject st c pid).1 pid uid =
          some { role := "editor", email := c.userEmail.getD "",
                 displayName := c.userDisplayName.getD "" }) ∧
    (∀ (st : Store) (c : Client) (inviteId : String) (invite : InviteDoc) (uid : String),
        c.userId = some uid →
        lookupMember (acceptInvite st c inviteId invite).1 invite.projectId uid =
          some { role := invite.role, email := c.userEmail.getD "",
                 displayName := c.userDisplayName.getD "" }) := by
  refine ⟨?_, ?_, ?_, ?_, ?_⟩
  · intro st user ui
    rcases hp : lookupAssoc st.projects (user.uid ++ "-personal") with _ | d
    · simp [ensureOwnerProject, hp, upsertProject, upsertMember, lookupMember,
        lookupAssoc_updateAssoc_self]
    · rcases hpl : d.plan with _ | pl <;>
        simp [ensureOwnerProject, hp, hpl, upsertProject, upsertMember,
          lookupMember, lookupAssoc_updateAssoc_self]
  · intro st c pid uid d hu ha hp hne hm
    rw [setActiveProject_member_created st c pid uid hu ha hm]
    simp [hp, hne]
  · intro st c pid uid d hu ha hp howner hm
    rw [setActiveProject_member_created st c pid uid hu ha hm]
    simp [hp, howner]
  · intro st c pid uid hu ha hp hm
    rw [setActiveProject_member_created st c pid uid hu ha hm]
    simp [hp]
  · intro st c inviteId invite uid hu
    have hm : lookupMember
        (upsertMember st invite.projectId uid
          { role := invite.role, email := c.userEmail.getD "",
            displayName := c.userDisplayName.getD "" })
        invite.projectId uid =
        some { role := invite.role, email := c.userEmail.getD "",
               displayName := c.userDisplayName.getD "" } := by
      simp [lookupMember, upsertMember, lookupAssoc_updateAssoc_self]
    rcases hi : lookupAssoc
        (upsertMember st invite.projectId uid
          { role := invite.role, email := c.userEmail.getD "",
            displayName := c.userDisplayName.getD "" }).invites inviteId with _ | stored
    · simpa [acceptInvite, hu, hi] using hm
    · simp only [acceptInvite, hu, hi]
      exact setActiveProject_member_preserved _ c invite.projectId uid _ hu
        (by simpa [lookupMember, upsertInvite, upsertMember] using hm)

theorem membership_creation_roles_witness :
    lookupMember
        (ensureOwnerProject demoStore (UserInfo.mk "u3" (some "u3@example.com") (some "U3")) [])
        "u3-personal" "u3" =
      some { role := "owner", email := "u3@example.com", displayName := "U3" } ∧
    (clientU2.userId = some "u2" ∧ clientU2.activeProjectId ≠ some "p" ∧
     lookupAssoc demoStore.projects "p" =
       some { ownerId := "u1", name := "Projekt X", plan := none, fields := [] } ∧
     "u2" ≠ "u1" ∧ lookupMember demoStore "p" "u2" = none) ∧
    lookupMember (setActiveProject demoStore clientU2 "p").1 "p" "u2" =
      some { role := "editor", email := "u2@example.com", displayName := "U2" } := by
  refine ⟨membership_creation_roles.1 demoStore
      (UserInfo.mk "u3" (some "u3@example.com") (some "U3")) [],
    ⟨rfl, by decide, rfl, by decide, by decide⟩,
    membership_creation_roles.2.1 demoStore clientU2 "p" "u2"
      { ownerId := "u1", name := "Projekt X", plan := none, fields := [] }
      rfl (by decide) rfl (by decide) (by decide)⟩

/-!
C6: invite status transitions. The claimed terminal-state no-op does not
exist in the code: accept, revoke and dismiss overwrite the status
unconditionally; only the pending-filtered snapshot queries feeding the UI
lists keep terminal invites out of sight.
-/

/-- An invite that is already in the terminal state accepted. -/
def acceptedInvite : InviteDoc :=
  { projectId := "p"
    projectName := "Projekt X"
    invitedEmail := "bob@example.com"
    role := "editor"
    status := "accepted"
    createdBy := "u1"
    createdByEmail := "u1@example.com"
    acceptedBy := some "u9"
    revokedBy := none
    dismissedBy := none }

/-- A store whose only invite i1 is already accepted. -/
def inviteStore : Store := { projects := [], members := [], invites := [("i1", acceptedInvite)] }

/-- C6 counterexample: invite i1 is in the terminal state accepted, yet the
revoke action transitions its status to revoked - acting on a terminal
invite is not a no-op, so the claimed monotonicity fails. -/
theorem revoke_transitions_accepted_invite :
    acceptedInvite.status = "accepted" ∧
    lookupAssoc (revokeInvite inviteStore "i1" (some "u1")).invites "i1" =
      some { acceptedInvite with status := "revoked", revokedBy := some "u1" } := by
  exact ⟨rfl, rfl⟩

/-- C6 (amended): accept, revoke and dismiss each overwrite the status of an
existing invite unconditionally, whatever its current status (including the
terminal ones): revoke stores revoked, dismiss stores dismissed, and accept
by an authenticated caller stores accepted. Terminal-state protection exists
only in the pending-filtered queries that feed the UI lists, not in the
operations. -/
theorem invite_transitions_unconditional :
    (∀ (st : Store) (inviteId : String) (byUid : Option String) (inv : InviteDoc),
        lookupAssoc st.invites inviteId = some inv →
        lookupAssoc (revokeInvite st inviteId byUid).invites inviteId =
          some { inv with status := "revoked", revokedBy := byUid }) ∧
    (∀ (st : Store) (inviteId : String) (byUid : Option String) (inv : InviteDoc),
        lookupAssoc st.invites inviteId = some inv →
        lookupAssoc (dismissInvite st inviteId byUid).invites inviteId =
          some { inv with status := "dismissed", dismissedBy := byUid }) ∧
    (∀ (st : Store) (c : Client) (inviteId : String) (invite : InviteDoc)
        (uid : String) (inv : InviteDoc),
        c.userId = some uid →
        lookupAssoc st.invites inviteId = some inv →
        lookupAssoc (acceptInvite st c inviteId invite).1.invites inviteId =
          some { inv with status := "accepted", acceptedBy := some uid }) := by
  refine ⟨?_, ?_, ?_⟩
  · intro st inviteId byUid inv h
    simp [revokeInvite, h, upsertInvite, lookupAssoc_updateAssoc_self]
  · intro st inviteId byUid inv h
    simp [dismissInvite, h, upsertInvite, lookupAssoc_updateAssoc_self]
  · intro st c inviteId invite uid inv hu h
    have h1 : lookupAssoc
        (upsertMember st invite.projectId uid
          { role := invite.role, email := c.userEmail.getD "",
            displayName := c.userDisplayName.getD "" }).invites inviteId = some inv := h
    simp only [acceptInvite, hu, h1]
    rw [setActiveProject_invites]
    simp [upsertInvite, lookupAssoc_updateAssoc_self]

theorem invite_transitions_unconditional_witness :
    lookupAssoc inviteStore.invites "i1" = some acceptedInvite ∧
    lookupAssoc (dismissInvite inviteStore "i1" (some "u9")).invites "i1" =
      some { acceptedInvite with status := "dismissed", dismissedBy := some "u9" } ∧
    (clientU2.userId = some "u2" ∧
     lookupAssoc (acceptInvite inviteStore clientU2 "i1" acceptedInvite).1.invites "i1" =
       some { acceptedInvite with status := "accepted", acceptedBy := some "u2" }) := by
  refine ⟨rfl, invite_transitions_unconditional.2.1 inviteStore "i1" (some "u9")
      acceptedInvite rfl,
    rfl, invite_transitions_unconditional.2.2 inviteStore clientU2 "i1"
      acceptedInvite "u2" acceptedInvite rfl rfl⟩

/-!
C7: owner gate on invite creation.
-/

/-- C7: an invite-form submission by an authenticated caller with an active
project whose effective role is not owner is rejected with the permission
warning and leaves the whole store - in particular the invites collection -
unchanged. -/
theorem createInvite_owner_gate (st : Store) (c : Client)
    (emailRaw roleSel newInviteId : String) (uid pid : String)
    (hu : c.userId = some uid) (ha : c.activeProjectId = some pid)
    (hrole : c.currentMembership.role ≠ "owner") :
    createInvite st c emailRaw roleSel newInviteId = (st, .permissionDenied) := by
  simp [createInvite, hu, ha, hrole]

/-- Client u2 viewing project p with role viewer (as resolved by
setActiveProject for a user without a membership record). -/
def viewerClient : Client :=
  { clientU2 with
    activeProjectId := some "p"
    projectDocRef := some "p"
    currentMembership := { role := "viewer", email := "", displayName := "" } }

theorem createInvite_owner_gate_witness :
    (viewerClient.userId = some "u2" ∧ viewerClient.activeProjectId = some "p" ∧
     viewerClient.currentMembership.role ≠ "owner") ∧
    createInvite demoStore viewerClient "bob@example.com" "editor" "tok1" =
      (demoStore, .permissionDenied) := by
  refine ⟨⟨rfl, rfl, by decide⟩, ?_⟩
  exact createInvite_owner_gate demoStore viewerClient "bob@example.com" "editor"
    "tok1" "u2" "p" rfl rfl (by decide)

/-!
C9: project switch and sign-out discard the pending buffer without flushing.
The previous project is never written; the pending throttled flush finds an
empty buffer. But a switch to a not-yet-existing project id seeds the new
project document with the current UI values, which still contain the typed
(unflushed) edit values.
-/

/-- A store holding only project p (owned by u1); project q does not exist. -/
def switchStore : Store :=
  { projects := [("p", { ownerId := "u1", name := "Alt", plan := none, fields := [("problem", "old")] })]
    members := [(("p", "u1"), { role := "owner", email := "", displayName := "" })]
    invites := [] }

/-- u1 on project p with an unflushed edit of the problem field to X (the UI
already shows X, the buffer still holds it). -/
def switchClient : Client :=
  { readyClient "u1" "p" 0 [("problem", "X")] with
    pendingRemoteUpdates := [("problem", "X")] }

/-- C9 counterexample: switching to the not-yet-existing project q discards
the buffered edit (the buffer is cleared without a flush), yet the creation
write seeds project q with the current UI field values - the typed value X
does reach the new project, contradicting the claim that buffered edits are
never written to the new project. -/
theorem project_switch_seeds_new_project :
    switchClient.pendingRemoteUpdates = [("problem", "X")] ∧
    lookupAssoc switchStore.projects "q" = none ∧
    (setActiveProject switchStore switchClient "q").2.pendingRemoteUpdates = [] ∧
    lookupAssoc (setActiveProject switchStore switchClient "q").1.projects "q" =
      some { ownerId := "u1", name := "Projekt", plan := none, fields := [("problem", "X")] } := by
  exact ⟨rfl, rfl, by decide, by decide⟩

/-- C9 (amended): switching the active project to a different id and signing
out both clear the pending buffer without flushing it: the resulting buffer
is empty, any project document other than the switch target is untouched,
a switch target that already has a document is untouched as well (the whole
projects collection is unchanged, so the buffered values never reach an
existing target), and a throttle timer that fires afterwards issues no
write. The one exception is the value content: a switch to a project id
with no existing document creates that document seeded with the current UI
field values. -/
theorem buffer_cleared_without_flush :
    (∀ (st : Store) (c : Client) (pid uid : String),
        c.userId = some uid → c.activeProjectId ≠ some pid →
        ((setActiveProject st c pid).2).pendingRemoteUpdates = [] ∧
        (∀ prev, prev ≠ pid →
          lookupAssoc ((setActiveProject st c pid).1).projects prev =
            lookupAssoc st.projects prev) ∧
        (∀ d : ProjectDoc, lookupAssoc st.projects pid = some d →
          ((setActiveProject st c pid).1).projects = st.projects) ∧
        (∀ b, (fireThrottleTimer ((setActiveProject st c pid).2) b).2 = none)) ∧
    (∀ (c : Client),
        (handleSignOut c).pendingRemoteUpdates = [] ∧
        (∀ b, (fireThrottleTimer (handleSignOut c) b).2 = none)) := by
  have hfire : ∀ (c : Client) (b : Bool), c.pendingRemoteUpdates = [] →
      (fireThrottleTimer c b).2 = none := by
    intro c b hbuf
    rcases ht : c.throttleTimer with _ | tf
    · simp [fireThrottleTimer, ht]
    · simp [fireThrottleTimer, ht,
        persistRemoteUpdates_empty { c with throttleLast := tf, throttleTimer := none } b hbuf]
  constructor
  · intro st c pid uid hu ha
    have hbuf : ((setActiveProject st c pid).2).pendingRemoteUpdates = [] := by
      rcases hp : lookupAssoc st.projects pid with _ | d <;>
        rcases hm : lookupAssoc st.members (pid, uid) with _ | m <;>
          simp [setActiveProject, hu, ha, hp, hm, lookupMember, upsertProject,
            clearProjectSubscriptions]
    refine ⟨hbuf, ?_, ?_, fun b => hfire _ b hbuf⟩
    · intro prev hprev
      rcases hp : lookupAssoc st.projects pid with _ | d <;>
        rcases hm : lookupAssoc st.members (pid, uid) with _ | m <;>
          simp [setActiveProject, hu, ha, hp, hm, lookupMember, upsertProject,
            upsertMember, lookupAssoc_updateAssoc_other _ _ _ _ hprev]
    · intro d hd
      rcases hm : lookupAssoc st.members (pid, uid) with _ | m <;>
        simp [setActiveProject, hu, ha, hd, hm, lookupMember, upsertMember]
  · intro c
    have hbuf : (handleSignOut c).pendingRemoteUpdates = [] := rfl
    exact ⟨hbuf, fun b => hfire _ b hbuf⟩

/-- u1 with the unflushed edit of switchClient, but currently on project id
z, about to switch to the already-existing project p. -/
def clientOnZ : Client :=
  { switchClient with activeProjectId := some "z", projectDocRef := some "z" }

theorem buffer_cleared_without_flush_witness :
    (switchClient.userId = some "u1" ∧ switchClient.activeProjectId ≠ some "q") ∧
    ((setActiveProject switchStore switchClient "q").2).pendingRemoteUpdates = [] ∧
    lookupAssoc ((setActiveProject switchStore switchClient "q").1).projects "p" =
      lookupAssoc switchStore.projects "p" ∧
    (fireThrottleTimer ((setActiveProject switchStore switchClient "q").2) true).2 = none ∧
    (clientOnZ.userId = some "u1" ∧ clientOnZ.activeProjectId ≠ some "p" ∧
     lookupAssoc switchStore.projects "p" =
       some { ownerId := "u1", name := "Alt", plan := none, fields := [("problem", "old")] } ∧
     clientOnZ.pendingRemoteUpdates = [("problem", "X")] ∧
     ((setActiveProject switchStore clientOnZ "p").1).projects = switchStore.projects) ∧
    (handleSignOut switchClient).pendingRemoteUpdates = [] := by
  have h := buffer_cleared_without_flush.1 switchStore switchClient "q" "u1" rfl (by decide)
  have h2 := buffer_cleared_without_flush.1 switchStore clientOnZ "p" "u1" rfl (by decide)
  exact ⟨⟨rfl, by decide⟩, h.1, h.2.1 "p" (by decide), h.2.2.2 true,
    ⟨rfl, by decide, rfl, rfl,
     h2.2.2.1 { ownerId := "u1", name := "Alt", plan := none, fields := [("problem", "old")] } rfl⟩,
    (buffer_cleared_without_flush.2 switchClient).1⟩

/-!
C8 and C10: the AI-proxy call retry policy.
-/

theorem callGeminiAPI_first_request (rs : List GeminiResp) (p : String)
    (k : Nat) (u : Bool) :
    ((callGeminiAPI rs p k u).2.1).head? = some ⟨p, u⟩ := by
  cases rs with
  | nil => simp [callGeminiAPI]
  | cons r rest =>
    by_cases h1 : r.status = 429
    · by_cases h2 : k < 1 <;> simp [callGeminiAPI, h1, h2]
    · by_cases h2 : r.status = 403
      · simp [callGeminiAPI, h1, h2]
      · by_cases h3 : r.status = 400
        · simp [callGeminiAPI, h1, h2, h3]
        · by_cases h4 : 200 ≤ r.status ∧ r.status < 300
          · rcases ht : r.text with _ | t
            · simp [callGeminiAPI, h1, h2, h3, h4, ht]
            · by_cases h5 : t = "" <;> simp [callGeminiAPI, h1, h2, h3, h4, ht, h5]
          · simp [callGeminiAPI, h1, h2, h3, h4]

/-- C8: the error policy of callGeminiAPI. A first 429 triggers exactly one
retry after the fixed 2000 ms delay: a 429 on the retry surfaces the
terminal overloaded error after exactly two requests (no further retry), a
successful retry returns the text; a 403 or a 400 on any first response is
terminal with no retry (rejected and invalid-request errors respectively),
and any other non-2xx status is a generic terminal error with no retry. -/
theorem callGeminiAPI_error_policy :
    (∀ (rest : List GeminiResp) (p : String) (u : Bool) (r : GeminiResp),
        r.status = 429 →
        callGeminiAPI (⟨429, none⟩ :: r :: rest) p 0 u =
          (.overloaded, [⟨p, u⟩, ⟨p, false⟩], [2000])) ∧
    (∀ (rest : List GeminiResp) (p : String) (u : Bool) (t : String),
        t ≠ "" →
        callGeminiAPI (⟨429, none⟩ :: ⟨200, some t⟩ :: rest) p 0 u =
          (.success t, [⟨p, u⟩, ⟨p, false⟩], [2000])) ∧
    (∀ (rs : List GeminiResp) (p : String) (u : Bool) (txt : Option String),
        callGeminiAPI (⟨403, txt⟩ :: rs) p 0 u = (.rejected, [⟨p, u⟩], [])) ∧
    (∀ (rs : List GeminiResp) (p : String) (u : Bool) (txt : Option String),
        callGeminiAPI (⟨400, txt⟩ :: rs) p 0 u = (.invalidRequest, [⟨p, u⟩], [])) ∧
    (∀ (rs : List GeminiResp) (p : String) (u : Bool) (s : Nat) (txt : Option String),
        s ≠ 429 → s ≠ 403 → s ≠ 400 → ¬ (200 ≤ s ∧ s < 300) →
        callGeminiAPI (⟨s, txt⟩ :: rs) p 0 u = (.apiError s, [⟨p, u⟩], [])) := by
  refine ⟨?_, ?_, ?_, ?_, ?_⟩
  · intro rest p u r hr
    simp [callGeminiAPI, hr]
  · intro rest p u t ht
    simp [callGeminiAPI, ht]
  · intro rs p u txt
    simp [callGeminiAPI]
  · intro rs p u txt
    simp [callGeminiAPI]
  · intro rs p u s txt h1 h2 h3 h4
    simp [callGeminiAPI, h1, h2, h3, h4]

theorem callGeminiAPI_error_policy_witness :
    ((429 : Nat) = 429 ∧
     callGeminiAPI [⟨429, none⟩, ⟨429, none⟩] "prompt" 0 false =
       (.overloaded, [⟨"prompt", false⟩, ⟨"prompt", false⟩], [2000])) ∧
    ("ok" ≠ "" ∧
     callGeminiAPI [⟨429, none⟩, ⟨200, some "ok"⟩] "prompt" 0 false =
       (.success "ok", [⟨"prompt", false⟩, ⟨"prompt", false⟩], [2000])) ∧
    ((500 : Nat) ≠ 429 ∧ ¬ (200 ≤ (500 : Nat) ∧ (500 : Nat) < 300) ∧
     callGeminiAPI [⟨500, none⟩] "prompt" 0 false =
       (.apiError 500, [⟨"prompt", false⟩], [])) := by
  refine ⟨⟨rfl, callGeminiAPI_error_policy.1 [] "prompt" false ⟨429, none⟩ rfl⟩,
    ⟨by decide, callGeminiAPI_error_policy.2.1 [] "prompt" false "ok" (by decide)⟩,
    ⟨by decide, by decide, callGeminiAPI_error_policy.2.2.2.2 [] "prompt" false 500
      none (by decide) (by decide) (by decide) (by decide)⟩⟩

/-- C10: a call issued with useSearch = true (as analyzeCompetitors does)
whose first response is a 429 issues the retry with useSearch at its default
false: the first request carries the googleSearch tool, the retried request
does not, so the retried payload is not equivalent to the original one. -/
theorem retry_drops_search_tool (rest : List GeminiResp) (p : String) :
    ((callGeminiAPI (⟨429, none⟩ :: rest) p 0 true).2.1).head? =
      some ⟨p, true⟩ ∧
    ((callGeminiAPI (⟨429, none⟩ :: rest) p 0 true).2.1).tail.head? =
      some ⟨p, false⟩ ∧
    (⟨p, true⟩ : GeminiRequest) ≠ (⟨p, false⟩ : GeminiRequest) := by
  refine ⟨?_, ?_, by simp⟩
  · exact callGeminiAPI_first_request _ p 0 true
  · simp only [callGeminiAPI]
    simpa using callGeminiAPI_first_request rest p 1 false

/-!
C1: coalescing of rapid edits by the 500 ms throttled remote flush. The
throttle utility has a leading edge (an edit arriving 500 ms or more after
the last execution flushes immediately) and a trailing edge (later edits in
the window reschedule one timeout at last + 500), so a burst of edits can
produce one or two outbound writes, the last of which carries the final
value. The invariant below tracks the three reachable mid-burst shapes.
-/

/-- The single-field update write produced by draining a buffer holding one
field. -/
def fieldWrite (pid f v uid : String) : RemoteWrite :=
  { project := pid, updates := [("fields." ++ f, v)], lastEditor := uid,
    stampsUpdatedAt := true }

/-- The client is authenticated and synced to project pid and not currently
applying remote data. -/
def syncReady (uid pid : String) (c : Client) : Prop :=
  c.userId = some uid ∧ c.activeProjectId = some pid ∧
  c.projectDocRef = some pid ∧ c.isApplyingRemoteData = false

/-- Mid-burst shape A: no write issued yet, the buffer holds the latest value
and a trailing timer is pending at throttleLast + 500; the window end W is
within reach of one more throttle period (the pending timer may still fire
inside the window). -/
def midA (uid pid f : String) (W : Nat) (v : String) (c : Client) : Prop :=
  syncReady uid pid c ∧ c.pendingRemoteUpdates = [(f, v)] ∧
  c.throttleTimer = some (c.throttleLast + 500) ∧ W ≤ c.throttleLast + 1000

/-- Mid-burst shape B: the first edit flushed on the leading edge, buffer
empty, no timer, and no further throttle execution can happen before W. -/
def midB (uid pid : String) (W : Nat) (c : Client) : Prop :=
  syncReady uid pid c ∧ c.pendingRemoteUpdates = [] ∧ c.throttleTimer = none ∧
  W ≤ c.throttleLast + 500

/-- Mid-burst shape C: one write already issued, the buffer holds the latest
value, a trailing timer is pending at throttleLast + 500 and will not fire
before W. -/
def midC (uid pid f : String) (W : Nat) (v : String) (c : Client) : Prop :=
  syncReady uid pid c ∧ c.pendingRemoteUpdates = [(f, v)] ∧
  c.throttleTimer = some (c.throttleLast + 500) ∧ W ≤ c.throttleLast + 500

/-- Invariant after at least one edit of field f with latest value v within a
burst whose edit times stay below W: either no write yet (shape A), or
exactly one write so far - the leading one, holding v when no later edit
arrived (shape B), or holding an earlier value with the latest one still
buffered (shape C). -/
def midInv (uid pid f : String) (W : Nat) (v : String) (c : Client)
    (ws : List RemoteWrite) : Prop :=
  (ws = [] ∧ midA uid pid f W v c) ∨
  (ws = [fieldWrite pid f v uid] ∧ midB uid pid W c) ∨
  (∃ w, ws = [w] ∧ midC uid pid f W v c)

/-- Latest value after a list of further edits, defaulting to v. -/
def lastValD (v : String) (es : List (Nat × String)) : String :=
  es.foldl (fun _ e => e.2) v

theorem stepEdit_inv (uid pid f : String) (W : Nat) (v vnew : String)
    (c : Client) (ws : List RemoteWrite) (t : Nat) (hW : t < W)
    (hInv : midInv uid pid f W v c ws) :
    midInv uid pid f W vnew (stepEdit c (t, f, vnew)).1
      (ws ++ (stepEdit c (t, f, vnew)).2) := by
  obtain ⟨hws, ⟨hu, ha, hp, hg⟩, hbuf, ht, hbound⟩ |
         ⟨hws, ⟨hu, ha, hp, hg⟩, hbuf, ht, hbound⟩ |
         ⟨w, hws, ⟨hu, ha, hp, hg⟩, hbuf, ht, hbound⟩ := hInv
  · -- shape A
    by_cases hle : c.throttleLast + 500 ≤ t
    · -- pending timer fires first, the edit then reschedules a trailing one
      have hstep : stepEdit c (t, f, vnew) =
          ({ c with uiValues := updateAssoc c.uiValues f vnew,
                    pendingRemoteUpdates := [(f, vnew)],
                    throttleLast := c.throttleLast + 500,
                    throttleTimer := some (c.throttleLast + 500 + 500),
                    saveStatus := "saved" },
           [fieldWrite pid f v uid]) := by
        simp [stepEdit, fireDueTimer, ht, hle, fireThrottleTimer,
          persistRemoteUpdates, hu, ha, hp, hbuf, handleFieldInput, hg,
          throttledFirestoreSave, updateAssoc, fieldWrite,
          show ¬ (c.throttleLast + 500 + 500 ≤ t) from by omega]
      rw [hstep, hws]
      refine Or.inr (Or.inr ⟨fieldWrite pid f v uid, rfl, ⟨hu, ha, hp, hg⟩,
        rfl, rfl, by simp; omega⟩)
    · -- timer not yet due: value replaced in the buffer, timer unchanged
      have hstep : stepEdit c (t, f, vnew) =
          ({ c with uiValues := updateAssoc c.uiValues f vnew,
                    pendingRemoteUpdates := [(f, vnew)],
                    throttleTimer := some (c.throttleLast + 500) }, []) := by
        simp [stepEdit, fireDueTimer, ht, hle, handleFieldInput, hg, hu, ha, hp,
          throttledFirestoreSave, hbuf, updateAssoc,
          show ¬ (c.throttleLast + 500 ≤ t) from hle]
      rw [hstep, hws]
      exact Or.inl ⟨by simp, ⟨hu, ha, hp, hg⟩, rfl, rfl, by simpa using hbound⟩
  · -- shape B
    have hle : ¬ (c.throttleLast + 500 ≤ t) := by omega
    have hstep : stepEdit c (t, f, vnew) =
        ({ c with uiValues := updateAssoc c.uiValues f vnew,
                  pendingRemoteUpdates := [(f, vnew)],
                  throttleTimer := some (c.throttleLast + 500) }, []) := by
      simp [stepEdit, fireDueTimer, ht, handleFieldInput, hg, hu, ha, hp,
        throttledFirestoreSave, hbuf, updateAssoc, hle]
    rw [hstep, hws]
    exact Or.inr (Or.inr ⟨fieldWrite pid f v uid, by simp, ⟨hu, ha, hp, hg⟩,
      rfl, rfl, by simpa using hbound⟩)
  · -- shape C
    have hle : ¬ (c.throttleLast + 500 ≤ t) := by omega
    have hstep : stepEdit c (t, f, vnew) =
        ({ c with uiValues := updateAssoc c.uiValues f vnew,
                  pendingRemoteUpdates := [(f, vnew)],
                  throttleTimer := some (c.throttleLast + 500) }, []) := by
      simp [stepEdit, fireDueTimer, ht, handleFieldInput, hg, hu, ha, hp,
        throttledFirestoreSave, hbuf, updateAssoc, hle,
        show ¬ (c.throttleLast + 500 ≤ t) from hle]
    rw [hstep, hws]
    exact Or.inr (Or.inr ⟨w, by simp, ⟨hu, ha, hp, hg⟩, rfl, rfl,
      by simpa using hbound⟩)

theorem runEdits_inv (uid pid f : String) (W : Nat) (es : List (Nat × String)) :
    ∀ (c : Client) (v : String) (ws : List RemoteWrite),
      midInv uid pid f W v c ws → (∀ e ∈ es, e.1 < W) →
      midInv uid pid f W (lastValD v es)
        (runEdits c (es.map (fun e => (e.1, f, e.2)))).1
        (ws ++ (runEdits c (es.map (fun e => (e.1, f, e.2)))).2) := by
  induction es with
  | nil =>
    intro c v ws hInv _
    simpa [runEdits, lastValD] using hInv
  | cons e rest ih =>
    intro c v ws hInv hW
    have h1 := stepEdit_inv uid pid f W v e.2 c ws e.1
      (hW e (List.mem_cons_self e rest)) hInv
    have h2 := ih (stepEdit c (e.1, f, e.2)).1 e.2
      (ws ++ (stepEdit c (e.1, f, e.2)).2) h1
      (fun x hx => hW x (List.mem_cons_of_mem e hx))
    simpa [runEdits, lastValD, List.append_assoc] using h2

theorem drain_inv (uid pid f : String) (W : Nat) (v : String) (c : Client)
    (ws : List RemoteWrite) (hInv : midInv uid pid f W v c ws) :
    ((ws ++ (drainTimer c).2).length = 1 ∨ (ws ++ (drainTimer c).2).length = 2) ∧
    (ws ++ (drainTimer c).2).getLast? = some (fieldWrite pid f v uid) ∧
    (drainTimer c).1.pendingRemoteUpdates = [] := by
  obtain ⟨hws, ⟨hu, ha, hp, hg⟩, hbuf, ht, hbound⟩ |
         ⟨hws, ⟨hu, ha, hp, hg⟩, hbuf, ht, hbound⟩ |
         ⟨w, hws, ⟨hu, ha, hp, hg⟩, hbuf, ht, hbound⟩ := hInv
  · have hdrain : drainTimer c =
        ({ c with pendingRemoteUpdates := [],
                  throttleLast := c.throttleLast + 500,
                  throttleTimer := none, saveStatus := "saved" },
         [fieldWrite pid f v uid]) := by
      simp [drainTimer, fireThrottleTimer, ht, persistRemoteUpdates,
        hu, ha, hp, hbuf, fieldWrite]
    rw [hdrain, hws]
    simp
  · have hdrain : drainTimer c = (c, []) := by
      simp [drainTimer, fireThrottleTimer, ht]
    rw [hdrain, hws]
    simpa using hbuf
  · have hdrain : drainTimer c =
        ({ c with pendingRemoteUpdates := [],
                  throttleLast := c.throttleLast + 500,
                  throttleTimer := none, saveStatus := "saved" },
         [fieldWrite pid f v uid]) := by
      simp [drainTimer, fireThrottleTimer, ht, persistRemoteUpdates,
        hu, ha, hp, hbuf, fieldWrite]
    rw [hdrain, hws]
    simp

theorem stepEdit_first (uid pid f : String) (lastT : Nat)
    (ui : List (String × String)) (t1 : Nat) (v1 : String) :
    midInv uid pid f (t1 + 500) v1
      (stepEdit (readyClient uid pid lastT ui) (t1, f, v1)).1
      ((stepEdit (readyClient uid pid lastT ui) (t1, f, v1)).2) := by
  by_cases hle : lastT + 500 ≤ t1
  · -- leading edge: the first edit flushes immediately
    have hstep : stepEdit (readyClient uid pid lastT ui) (t1, f, v1) =
        ({ readyClient uid pid lastT ui with
            uiValues := updateAssoc ui f v1,
            throttleLast := t1,
            saveStatus := "saved" },
         [fieldWrite pid f v1 uid]) := by
      simp [stepEdit, fireDueTimer, readyClient, initialClient,
        handleFieldInput, throttledFirestoreSave, hle, persistRemoteUpdates,
        updateAssoc, fieldWrite]
    rw [hstep]
    exact Or.inr (Or.inl ⟨rfl, ⟨rfl, rfl, rfl, rfl⟩, rfl, rfl, by simp⟩)
  · -- trailing: buffered, one timeout scheduled at lastT + 500
    have hstep : stepEdit (readyClient uid pid lastT ui) (t1, f, v1) =
        ({ readyClient uid pid lastT ui with
            uiValues := updateAssoc ui f v1,
            pendingRemoteUpdates := [(f, v1)],
            throttleTimer := some (lastT + 500) }, []) := by
      simp [stepEdit, fireDueTimer, readyClient, initialClient,
        handleFieldInput, throttledFirestoreSave, hle, updateAssoc]
    rw [hstep]
    exact Or.inl ⟨rfl, ⟨rfl, rfl, rfl, rfl⟩, rfl, rfl, by simp [readyClient, initialClient]; omega⟩

/-- C1 counterexample: two edits of the solution field 200 ms apart (well
inside one 500 ms quiet window) by an authenticated client with an active
project produce TWO outbound writes, not one: the throttle flushes the first
value on its leading edge and the final value on the trailing timeout. The
first write does not contain the final value. -/
theorem throttle_two_edits_two_writes :
    (runEditsAndDrain (readyClient "u1" "u1-personal" 0 [])
        [(1000, "solution", "a"), (1200, "solution", "b")]).2 =
      [fieldWrite "u1-personal" "solution" "a" "u1",
       fieldWrite "u1-personal" "solution" "b" "u1"] ∧
    (runEditsAndDrain (readyClient "u1" "u1-personal" 0 [])
        [(1000, "solution", "a"), (1200, "solution", "b")]).2.length ≠ 1 := by
  exact ⟨rfl, by decide⟩

/-- C1 (amended): a burst of N edits (N at least 1) of the same field within
one 500 ms window, by an authenticated client with an active project, an
empty buffer and no timer pending, produces at most two outbound writes -
exactly one when no leading-edge flush intervenes - and the LAST outbound
write contains the final value of the field; the buffer is empty once the
trailing timeout has run. -/
theorem throttled_flush_coalescing (uid pid f : String) (lastT : Nat)
    (ui : List (String × String)) (t1 : Nat) (v1 : String)
    (rest : List (Nat × String))
    (hwin : ∀ e ∈ rest, e.1 < t1 + 500)
    (_hordered : List.Chain' (fun a b => a.1 ≤ b.1) ((t1, v1) :: rest)) :
    ((runEditsAndDrain (readyClient uid pid lastT ui)
        (((t1, v1) :: rest).map (fun e => (e.1, f, e.2)))).2.length = 1 ∨
     (runEditsAndDrain (readyClient uid pid lastT ui)
        (((t1, v1) :: rest).map (fun e => (e.1, f, e.2)))).2.length = 2) ∧
    (runEditsAndDrain (readyClient uid pid lastT ui)
        (((t1, v1) :: rest).map (fun e => (e.1, f, e.2)))).2.getLast? =
      some (fieldWrite pid f (lastValD v1 rest) uid) ∧
    (runEditsAndDrain (readyClient uid pid lastT ui)
        (((t1, v1) :: rest).map (fun e => (e.1, f, e.2)))).1.pendingRemoteUpdates = [] := by
  have h1 := stepEdit_first uid pid f lastT ui t1 v1
  have h2 := runEdits_inv uid pid f (t1 + 500) rest
    (stepEdit (readyClient uid pid lastT ui) (t1, f, v1)).1 v1
    (stepEdit (readyClient uid pid lastT ui) (t1, f, v1)).2 h1 hwin
  have h3 := drain_inv uid pid f (t1 + 500) (lastValD v1 rest) _ _ h2
  simpa [runEditsAndDrain, runEdits, List.append_assoc] using h3

theorem throttled_flush_coalescing_witness :
    ((∀ e ∈ [((700 : Nat), "b")], e.1 < 600 + 500) ∧
     List.Chain' (fun (a b : Nat × String) => a.1 ≤ b.1)
       [(600, "a"), (700, "b")]) ∧
    ((runEditsAndDrain (readyClient "u1" "p" 0 [])
        ([((600 : Nat), "a"), ((700 : Nat), "b")].map (fun e => (e.1, "solution", e.2)))).2.length = 1 ∨
     (runEditsAndDrain (readyClient "u1" "p" 0 [])
        ([((600 : Nat), "a"), ((700 : Nat), "b")].map (fun e => (e.1, "solution", e.2)))).2.length = 2) ∧
    (runEditsAndDrain (readyClient "u1" "p" 0 [])
        ([((600 : Nat), "a"), ((700 : Nat), "b")].map (fun e => (e.1, "solution", e.2)))).2.getLast? =
      some (fieldWrite "p" "solution" (lastValD "a" [(700, "b")]) "u1") ∧
    (runEditsAndDrain (readyClient "u1" "p" 0 [])
        ([((600 : Nat), "a"), ((700 : Nat), "b")].map (fun e => (e.1, "solution", e.2)))).1.pendingRemoteUpdates = [] := by
  refine ⟨⟨by decide, by simp⟩, ?_⟩
  exact throttled_flush_coalescing "u1" "p" "solution" 0 [] 600 "a" [(700, "b")]
    (by decide) (by simp)

end MySite
